import Mathlib

/-!
Verification development for the EE-Mail service (a small HTTP gateway
forwarding outbound mail to an upstream provider and relaying inbound
webhooks into a relational store).

The JavaScript source is shallowly embedded: JS strings are Lean `String`s,
JS objects used as string maps are association lists `List (String × String)`
with first-key-wins lookup, `undefined`/`null` are `Option.none`, and JS
truthiness of a string value is "present and nonempty".  Stateful pieces
(the in-memory credential cache, the database tables) are passed explicitly.
Database queries are modelled by their effect on the table lists; a failing
store read is `Option.none`.  Times are milliseconds as `Nat`.
-/

namespace EEMail

/-! ## JS string and object primitives -/

/-- Truthiness of a JS string: `""` is falsy, every other string truthy. -/
def jsTruthyS (s : String) : Bool := !(s == "")

/-- Truthiness of a possibly-absent JS string value (`undefined`/`null` falsy). -/
def jsTruthy : Option String → Bool
  | none => false
  | some s => jsTruthyS s

/-- JS `a || b` on possibly-absent string values. -/
def jsOr (a b : Option String) : Option String :=
  if jsTruthy a then a else b

/-- ASCII lower-casing of one character, as `String.prototype.toLowerCase`
acts on the ASCII range (all inputs in this code are ASCII domain names). -/
def charLower (c : Char) : Char :=
  if 'A' ≤ c ∧ c ≤ 'Z' then Char.ofNat (c.toNat + 32) else c

/-- JS `s.toLowerCase()`. -/
def jsToLower (s : String) : String := String.mk (s.data.map charLower)

/-- JS whitespace for `trim` (space, tab, newline, carriage return). -/
def isJsWs (c : Char) : Bool := c = ' ' ∨ c = '\t' ∨ c = '\n' ∨ c = '\r'

/-- JS `s.trim()`. -/
def jsTrim (s : String) : String :=
  String.mk (((s.data.dropWhile isJsWs).reverse.dropWhile isJsWs).reverse)

/-- Helper for `jsSplit`: split a character list on a separator. -/
def jsSplitAux (sep : Char) : List Char → List Char → List (List Char)
  | [], acc => [acc.reverse]
  | c :: rest, acc =>
    if c = sep then acc.reverse :: jsSplitAux sep rest []
    else jsSplitAux sep rest (c :: acc)

/-- JS `s.split(sep)` for a one-character separator
(`"".split(sep)` is `[""]`, like in JS). -/
def jsSplit (s : String) (sep : Char) : List String :=
  (jsSplitAux sep s.data []).map String.mk

/-- First-match lookup in a JS object modelled as an association list. -/
def lookupStr : List (String × String) → String → Option String
  | [], _ => none
  | (k', v) :: rest, k => if k' = k then some v else lookupStr rest k

/-- JS object property assignment `m[k] = v`: replace the value in place if
the key exists (keeping insertion order), else append the new key. -/
def objInsert : List (String × String) → String → String → List (String × String)
  | [], k, v => [(k, v)]
  | (k', v') :: rest, k, v =>
    if k' = k then (k, v) :: rest else (k', v') :: objInsert rest k v

/-- A JS value that is either a string or an array of strings
(as the `to` field of a request may be). -/
inductive JsStr where
  | str : String → JsStr
  | arr : List String → JsStr
deriving DecidableEq, Repr

/-- JS `Array.isArray(x) ? x.join(', ') : x`. -/
def jsStrJoin : JsStr → String
  | .str s => s
  | .arr l => String.intercalate ", " l

/-- JS `Array.isArray(x) ? x[0] : x` (an empty array yields `undefined`). -/
def jsStrFirst : JsStr → Option String
  | .str s => some s
  | .arr l => l[0]?

/-- Truthiness of a possibly-absent string-or-array value: any array
(even empty) is truthy in JS. -/
def jsTruthyJ : Option JsStr → Bool
  | none => false
  | some (.str s) => jsTruthyS s
  | some (.arr _) => true

/-- JS `s && s.split('@')[1]`: the domain part of an address, `none` when the
string has no `'@'` (index 1 of the split is `undefined`) and `some ""` when
the string itself is empty (the falsy string short-circuits the `&&`). -/
def jsDomainOfAddr (s : String) : Option String :=
  if s = "" then some "" else (jsSplit s '@')[1]?

/-! ## Configuration (`src/config.js`, database-backed variant)

`parseDomains` and `parseDefaultSenders` are translated from the source;
the environment is a pair of possibly-absent strings (`EMAIL_DOMAINS ||
EMAIL_DOMAIN` and `DEFAULT_SENDERS || DEFAULT_FROM` are taken already
`||`-combined, which is how the source reads them). -/

/-- `parseDomains` from `src/config.js`: split the comma-separated domain
list, trim and lower-case each entry, drop empties; a missing/empty
environment value falls back to the built-in default domain. -/
def parseDomains (domainsEnv : Option String) : List String :=
  if !jsTruthy domainsEnv then ["eternalgy.me"]
  else
    ((jsSplit (domainsEnv.getD "") ',').map
      (fun d => jsToLower (jsTrim d))).filter (fun d => d.length > 0)

/-- The explicit `domain:sender` pairs parsed from `DEFAULT_SENDERS` when it
contains a `':'` (first two `':'`-separated components of each comma-separated
pair, trimmed, domain lower-cased; pairs with a falsy domain or sender are
skipped).  An environment value without `':'` yields no pairs. -/
def parsedSenderPairs (sendersEnv : String) : List (String × String) :=
  if sendersEnv.data.contains ':' then
    (jsSplit sendersEnv ',').foldl
      (fun m pair =>
        let parts := (jsSplit pair ':').map jsTrim
        let domain := parts[0]?
        let sender := parts[1]?
        if jsTruthy domain && jsTruthy sender then
          objInsert m (jsToLower (domain.getD "")) (sender.getD "")
        else m)
      []
  else []

/-- `parseDefaultSenders` from `src/config.js`: with no (or empty) sender
environment every domain gets `noreply@<domain>`; otherwise the explicit
pairs are taken and every domain whose entry is still falsy is filled with
`noreply@<domain>`. -/
def parseDefaultSenders (domains : List String) (sendersEnv : Option String) :
    List (String × String) :=
  if !jsTruthy sendersEnv then
    domains.foldl (fun m d => objInsert m d ("noreply@" ++ d)) []
  else
    domains.foldl
      (fun m d => if jsTruthy (lookupStr m d) then m
                  else objInsert m d ("noreply@" ++ d))
      (parsedSenderPairs (sendersEnv.getD ""))

/-- The startup configuration consumed by the credential resolver and the
routes (fields of the `config` object in `src/index.js`). -/
structure Config where
  RESEND_API_KEY : Option String
  ENV_API_KEYS : List (String × String)
  EMAIL_DOMAINS : List String
  DEFAULT_SENDERS : List (String × String)
deriving DecidableEq, Repr

/-- `config.EMAIL_DOMAIN`: the primary domain, `EMAIL_DOMAINS[0]`. -/
def Config.EMAIL_DOMAIN (c : Config) : Option String := c.EMAIL_DOMAINS[0]?

/-- `config.DEFAULT_FROM`: the primary domain's default sender. -/
def Config.DEFAULT_FROM (c : Config) : Option String :=
  match c.EMAIL_DOMAIN with
  | some d => lookupStr c.DEFAULT_SENDERS d
  | none => none

/-! ## Credential cache and resolver (`src/index.js` lines 281-322) -/

/-- `API_KEYS_CACHE_TTL` (milliseconds). -/
def API_KEYS_CACHE_TTL : Nat := 60000

/-- The module-level mutable cache: `dbApiKeysCache` (a domain → key map or
`null`) and `dbApiKeysCacheTime`. -/
structure CacheState where
  dbApiKeysCache : Option (List (String × String))
  dbApiKeysCacheTime : Nat
deriving DecidableEq, Repr

/-- `clearApiKeysCache` from `src/index.js`. -/
def clearApiKeysCache (_st : CacheState) : CacheState :=
  { dbApiKeysCache := none, dbApiKeysCacheTime := 0 }

/-- The final fallback of `getApiKeyForDomain`:
`config.ENV_API_KEYS[domainLower] || config.RESEND_API_KEY`. -/
def envApiKeyFallback (cfg : Config) (domainLower : String) : Option String :=
  jsOr (lookupStr cfg.ENV_API_KEYS domainLower) cfg.RESEND_API_KEY

/-- `getApiKeyForDomain` from `src/index.js` (database-backed variant).
`store` is the outcome of `loadApiKeysFromDb` (`getApiKeysMap`): `some m` for
a successful read of the active-keys map, `none` for a rejected query (the
`catch` path).  Returns the resolved key (or `none`) and the cache state
after the call.  When a reload is attempted and fails, the `catch` skips the
cache lookup inside the `try` and control falls directly to the environment
fallback, with the cache fields untouched. -/
def getApiKeyForDomain (cfg : Config) (st : CacheState) (now : Nat)
    (store : Option (List (String × String))) (domain : Option String) :
    Option String × CacheState :=
  if !jsTruthy domain then (cfg.RESEND_API_KEY, st)
  else
    let domainLower := jsToLower (domain.getD "")
    if st.dbApiKeysCache = none ∨ API_KEYS_CACHE_TTL < now - st.dbApiKeysCacheTime then
      match store with
      | some m =>
        if jsTruthy (lookupStr m domainLower) then
          (lookupStr m domainLower, ⟨some m, now⟩)
        else (envApiKeyFallback cfg domainLower, ⟨some m, now⟩)
      | none => (envApiKeyFallback cfg domainLower, st)
    else
      match st.dbApiKeysCache with
      | some m =>
        if jsTruthy (lookupStr m domainLower) then (lookupStr m domainLower, st)
        else (envApiKeyFallback cfg domainLower, st)
      | none => (envApiKeyFallback cfg domainLower, st)

/-! ## Email service (`src/email-service.js`) -/

/-- An attachment of a send request; `content` is the base64 payload. -/
structure Attachment where
  filename : Option String
  content : Option String
deriving DecidableEq, Repr

/-- The options object accepted by `sendEmail` (also the parsed body of
`POST /send`, which has the same fields).  The JS `from` property is named
`fromField` (`from` is a Lean keyword). -/
structure SendOptions where
  toField : Option JsStr
  subject : Option String
  html : Option String
  text : Option String
  fromField : Option String
  cc : Option (List String)
  bcc : Option (List String)
  attachments : Option (List Attachment)
  domain : Option String
deriving DecidableEq, Repr

/-- The JSON payload `sendEmail` posts to the provider (the options with
`from` defaulted to `config.DEFAULT_FROM`). -/
structure SendPayload where
  fromField : Option String
  toField : Option JsStr
  subject : Option String
  html : Option String
  text : Option String
  cc : Option (List String)
  bcc : Option (List String)
  attachments : Option (List Attachment)
deriving DecidableEq, Repr

/-- A successful provider response (`data` of a 2xx send). -/
structure ProviderOk where
  id : String
deriving DecidableEq, Repr

/-- A provider-reported failure: HTTP status and message of a non-2xx send. -/
structure ProviderErr where
  status : Nat
  message : String
deriving DecidableEq, Repr

/-- The payload built at the top of `sendEmail`. -/
def buildPayload (cfg : Config) (o : SendOptions) : SendPayload :=
  { fromField := jsOr o.fromField cfg.DEFAULT_FROM
    toField := o.toField, subject := o.subject, html := o.html, text := o.text
    cc := o.cc, bcc := o.bcc, attachments := o.attachments }

/-- `const fromDomain = domain || (from && from.split('@')[1])` in
`sendEmail`. -/
def fromDomainOf (o : SendOptions) : Option String :=
  if jsTruthy o.domain then o.domain
  else match o.fromField with
    | some f => jsDomainOfAddr f
    | none => none

/-- Outcome of `sendEmail`: a provider response, or a thrown error carrying
an HTTP status and message. -/
inductive SendResult where
  | ok : ProviderOk → SendResult
  | err : Nat → String → SendResult
deriving DecidableEq, Repr

/-- `sendEmail` from `src/email-service.js`.  `upstream` is the provider's
send endpoint, applied to the payload and the bearer key; the returned list
records every HTTP request issued to the provider during the call (empty when
the function throws before `fetch`).  The cache state threads through the
`getApiKeyForDomain` call. -/
def sendEmail (cfg : Config) (st : CacheState) (now : Nat)
    (store : Option (List (String × String)))
    (upstream : SendPayload → String → Except ProviderErr ProviderOk)
    (o : SendOptions) : SendResult × CacheState × List SendPayload :=
  let payload := buildPayload cfg o
  let (apiKey, st') := getApiKeyForDomain cfg st now store (fromDomainOf o)
  match apiKey with
  | some k =>
    if k = "" then (.err 500 "No API key configured for domain", st', [])
    else
      match upstream payload k with
      | .ok v => (.ok v, st', [payload])
      | .error e => (.err e.status e.message, st', [payload])
  | none => (.err 500 "No API key configured for domain", st', [])

/-- One element of the list `sendBatch` returns:
`{ index, success, data, error }`. -/
structure BatchItemResult where
  index : Nat
  success : Bool
  data : Option ProviderOk
  error : Option ProviderErr
deriving DecidableEq, Repr

/-- How `sendBatch` turns the settlement of one promise into its result
entry. -/
def settleOf (i : Nat) : Except ProviderErr ProviderOk → BatchItemResult
  | .ok v => ⟨i, true, some v, none⟩
  | .error e => ⟨i, false, none, some e⟩

/-- `results.map((result, index) => ...)`: attach indices starting at `i`. -/
def settleAllFrom (i : Nat) : List (Except ProviderErr ProviderOk) → List BatchItemResult
  | [] => []
  | r :: rest => settleOf i r :: settleAllFrom (i + 1) rest

/-- `sendBatch` from `src/email-service.js`: every item is dispatched through
`sendEmail` (here the per-item settlement function `send`), all promises are
awaited with `Promise.allSettled`, and the results are mapped in input order. -/
def sendBatch (send : SendOptions → Except ProviderErr ProviderOk)
    (emails : List SendOptions) : List BatchItemResult :=
  settleAllFrom 0 (emails.map send)

/-! ## Resend client retry (`src/resend-client.js` lines 117-135) -/

/-- The body of a fetched received email (`html`, `text`, `headers` of the
provider's content endpoint); `none` models an absent field. -/
structure EmailContent where
  html : Option String
  text : Option String
  headers : Option String
deriving DecidableEq, Repr

/-- The retry loop of `getReceivedEmailWithRetry`: `outcome i` is the result
of the `i`-th provider call (`none` = the call threw).  Returns the fetched
content (`none` when every attempt failed, i.e. the function rethrows the
last error) together with the list of waits, in milliseconds, performed
before each attempt actually made (the first attempt waits `1000 * 0 = 0`). -/
def getReceivedEmailWithRetryAux (outcome : Nat → Option EmailContent) :
    Nat → Nat → Option EmailContent × List Nat
  | 0, _ => (none, [])
  | fuel + 1, i =>
    match outcome i with
    | some c => (some c, [1000 * i])
    | none =>
      let rest := getReceivedEmailWithRetryAux outcome fuel (i + 1)
      (rest.1, 1000 * i :: rest.2)

/-- `getReceivedEmailWithRetry` from `src/resend-client.js` (the call sites
in `src/server.js` leave `retries` at its default of 3). -/
def getReceivedEmailWithRetry (outcome : Nat → Option EmailContent)
    (retries : Nat) : Option EmailContent × List Nat :=
  getReceivedEmailWithRetryAux outcome retries 0

/-! ## Database model (`src/database.js`)

Each table is a list of rows; `SERIAL` ids and `CURRENT_TIMESTAMP` values
are passed in explicitly.  JSONB columns holding stringified values keep
the original Lean value (the stringification is injective and never read
back by the code under specification).  A database operation takes
`Option Db`: `none` models `pool === null` (no `DATABASE_URL` configured). -/

/-- A row of the `emails` table (columns used by the code). -/
structure EmailRow where
  resend_id : Option String
  domain : String
  from_email : Option String
  to_email : Option String
  cc_emails : List String
  bcc_emails : List String
  subject : Option String
  html_content : Option String
  text_content : Option String
  status : String
  sent_at : Nat
  delivered_at : Option Nat
  opened_at : Option Nat
  clicked_at : Option Nat
deriving DecidableEq, Repr

/-- A row of the `webhooks` event log. -/
structure WebhookRow where
  event_type : Option String
  email_id : Option String
  payload : String
deriving DecidableEq, Repr

/-- A row of the `received_emails` table. -/
structure ReceivedRow where
  email_id : Option String
  message_id : Option String
  domain : String
  from_email : Option String
  to_email : Option String
  subject : Option String
  html_content : Option String
  text_content : Option String
  attachments : String
  headers : String
  raw_data : String
deriving DecidableEq, Repr

/-- A row of the `api_keys` table. -/
structure ApiKeyRecord where
  id : Nat
  domain : String
  api_key : String
  description : String
  is_active : Bool
  created_at : Nat
  updated_at : Nat
deriving DecidableEq, Repr

/-- The relational store. -/
structure Db where
  emails : List EmailRow
  webhooks : List WebhookRow
  received_emails : List ReceivedRow
  api_keys : List ApiKeyRecord
deriving DecidableEq, Repr

/-- The argument object of `saveEmail`. -/
structure SaveEmailData where
  resendId : Option String
  domain : Option String
  fromField : Option String
  toField : Option JsStr
  cc : Option (List String)
  bcc : Option (List String)
  subject : Option String
  html : Option String
  text : Option String
  status : String
deriving DecidableEq, Repr

/-- The `INSERT INTO emails` of `saveEmail`: domain defaults to the `from`
address's domain part and then to `'eternalgy.me'`
(`domain || fromEmail.split('@')[1] || 'eternalgy.me'` with
`fromEmail = from || ''`). -/
def saveEmailTable (emails : List EmailRow) (now : Nat) (d : SaveEmailData) :
    List EmailRow × EmailRow :=
  let fromEmail := d.fromField.getD ""
  let emailDomain :=
    (jsOr (jsOr d.domain ((jsSplit fromEmail '@')[1]?)) (some "eternalgy.me")).getD ""
  let row : EmailRow :=
    { resend_id := d.resendId, domain := emailDomain, from_email := d.fromField
      to_email := d.toField.map jsStrJoin
      cc_emails := d.cc.getD [], bcc_emails := d.bcc.getD []
      subject := d.subject, html_content := d.html, text_content := d.text
      status := d.status, sent_at := now
      delivered_at := none, opened_at := none, clicked_at := none }
  (emails ++ [row], row)

/-- `saveEmail` from `src/database.js`: `if (!pool) return null`. -/
def saveEmail (pool : Option Db) (now : Nat) (d : SaveEmailData) :
    Option Db × Option EmailRow :=
  match pool with
  | none => (none, none)
  | some db =>
    let (t, row) := saveEmailTable db.emails now d
    (some { db with emails := t }, some row)

/-- A webhook event as received by `saveWebhook` (`event.type`,
`event.data?.email_id`, and the stringified payload). -/
structure WebhookEvent where
  type : Option String
  dataEmailId : Option String
  payload : String
deriving DecidableEq, Repr

/-- `saveWebhook` from `src/database.js`. -/
def saveWebhook (pool : Option Db) (e : WebhookEvent) :
    Option Db × Option WebhookRow :=
  match pool with
  | none => (none, none)
  | some db =>
    let row : WebhookRow := { event_type := e.type, email_id := e.dataEmailId
                              payload := e.payload }
    (some { db with webhooks := db.webhooks ++ [row] }, some row)

/-- The optional timestamp columns `updateEmailStatus` may set. -/
structure StatusUpdateData where
  delivered_at : Option Nat
  opened_at : Option Nat
  clicked_at : Option Nat
deriving DecidableEq, Repr

/-- The `UPDATE emails ... WHERE resend_id = $..` of `updateEmailStatus`:
sets `status` and whichever of the three timestamps is (truthily) given. -/
def updateEmailStatusTable (emails : List EmailRow) (resendId : String)
    (status : String) (d : StatusUpdateData) : List EmailRow × Option EmailRow :=
  let f := fun (r : EmailRow) =>
    if r.resend_id = some resendId then
      { r with status := status
               delivered_at := if d.delivered_at.isSome then d.delivered_at else r.delivered_at
               opened_at := if d.opened_at.isSome then d.opened_at else r.opened_at
               clicked_at := if d.clicked_at.isSome then d.clicked_at else r.clicked_at }
    else r
  (emails.map f, (emails.find? (fun r => r.resend_id == some resendId)).map f)

/-- `updateEmailStatus` from `src/database.js`. -/
def updateEmailStatus (pool : Option Db) (resendId : String) (status : String)
    (d : StatusUpdateData) : Option Db × Option EmailRow :=
  match pool with
  | none => (none, none)
  | some db =>
    let (t, row) := updateEmailStatusTable db.emails resendId status d
    (some { db with emails := t }, row)

/-- The argument object of `saveReceivedEmail` (webhook arrival data). -/
structure ReceivedData where
  emailId : Option String
  messageId : Option String
  domain : Option String
  fromField : Option String
  toField : Option JsStr
  subject : Option String
  html : Option String
  text : Option String
  attachments : Option String
  headers : Option String
  rawData : Option String
deriving DecidableEq, Repr

/-- The domain stored by `saveReceivedEmail`:
`domain || (toEmail && toEmail.split('@')[1]) || 'eternalgy.me'` with
`toEmail = Array.isArray(to) ? to[0] : to`. -/
def receivedDomainOf (d : ReceivedData) : String :=
  let toEmail := d.toField.bind jsStrFirst
  let viaTo := toEmail.bind (fun te => jsDomainOfAddr te)
  (jsOr (jsOr d.domain viaTo) (some "eternalgy.me")).getD ""

/-- The row `saveReceivedEmail` inserts (JSONB defaults `[]` and `\x7b\x7d`
for absent attachments/headers/raw data, as `JSON.stringify(x || ...)`). -/
def receivedRowOf (d : ReceivedData) : ReceivedRow :=
  { email_id := d.emailId, message_id := d.messageId
    domain := receivedDomainOf d
    from_email := d.fromField
    to_email := d.toField.map jsStrJoin
    subject := d.subject
    html_content := d.html, text_content := d.text
    attachments := d.attachments.getD "[]"
    headers := d.headers.getD "\x7b\x7d"
    raw_data := d.rawData.getD "\x7b\x7d" }

/-- The `INSERT ... ON CONFLICT (email_id) DO NOTHING RETURNING *` of
`saveReceivedEmail`: a duplicate non-null `email_id` leaves the table
untouched and returns no row (SQL `NULL` keys never conflict). -/
def saveReceivedEmailTable (table : List ReceivedRow) (d : ReceivedData) :
    List ReceivedRow × Option ReceivedRow :=
  match d.emailId with
  | some e =>
    if table.any (fun r => r.email_id == some e) then (table, none)
    else (table ++ [receivedRowOf d], some (receivedRowOf d))
  | none => (table ++ [receivedRowOf d], some (receivedRowOf d))

/-- `saveReceivedEmail` from `src/database.js`. -/
def saveReceivedEmail (pool : Option Db) (d : ReceivedData) :
    Option Db × Option ReceivedRow :=
  match pool with
  | none => (none, none)
  | some db =>
    let (t, row) := saveReceivedEmailTable db.received_emails d
    (some { db with received_emails := t }, row)

/-- The `UPDATE received_emails` of `updateReceivedEmail` at the webhook
call site, where `html`, `text` and `headers` are all passed: a field that
is `undefined` (`none` here) is left out of the `SET` list, `headers` only
when truthy; with no `SET` clauses the query is skipped entirely. -/
def updateReceivedEmailTable (table : List ReceivedRow) (emailId : String)
    (c : EmailContent) : List ReceivedRow × Option ReceivedRow :=
  if c.html.isNone && c.text.isNone && !jsTruthy c.headers then (table, none)
  else
    let f := fun (r : ReceivedRow) =>
      if r.email_id = some emailId then
        { r with html_content := if c.html.isSome then c.html else r.html_content
                 text_content := if c.text.isSome then c.text else r.text_content
                 headers := if jsTruthy c.headers then c.headers.getD r.headers else r.headers }
      else r
    (table.map f, (table.find? (fun r => r.email_id == some emailId)).map f)

/-- `updateReceivedEmail` from `src/database.js`. -/
def updateReceivedEmail (pool : Option Db) (emailId : String) (c : EmailContent) :
    Option Db × Option ReceivedRow :=
  match pool with
  | none => (none, none)
  | some db =>
    let (t, row) := updateReceivedEmailTable db.received_emails emailId c
    (some { db with received_emails := t }, row)

/-- Descending insertion by `sent_at` (`ORDER BY sent_at DESC`). -/
def insertBySentAt (r : EmailRow) : List EmailRow → List EmailRow
  | [] => [r]
  | x :: xs => if x.sent_at ≤ r.sent_at then r :: x :: xs else x :: insertBySentAt r xs

/-- Sort rows by `sent_at` descending. -/
def sortBySentAtDesc (l : List EmailRow) : List EmailRow :=
  l.foldr insertBySentAt []

/-- `getRecentEmails` from `src/database.js`: `if (!pool) return []`. -/
def getRecentEmails (pool : Option Db) (limit : Nat) : List EmailRow :=
  match pool with
  | none => []
  | some db => (sortBySentAtDesc db.emails).take limit

/-- The `INSERT ... ON CONFLICT (domain) DO UPDATE` of `saveApiKey`: an
existing record for the (lower-cased) domain gets the new secret and
description, a fresh `updated_at`, and `is_active` forced to `true`;
otherwise a new active record is appended. -/
def saveApiKeyTable (table : List ApiKeyRecord) (nextId now : Nat)
    (domain apiKey description : String) : List ApiKeyRecord :=
  let d := jsToLower domain
  if table.any (fun r => r.domain == d) then
    table.map (fun r =>
      if r.domain = d then
        { r with api_key := apiKey, description := description
                 updated_at := now, is_active := true }
      else r)
  else
    table ++ [{ id := nextId, domain := d, api_key := apiKey
                description := description, is_active := true
                created_at := now, updated_at := now }]

/-- `saveApiKey` from `src/database.js` (`RETURNING` the upserted record). -/
def saveApiKey (pool : Option Db) (nextId now : Nat)
    (domain apiKey description : String) : Option Db × Option ApiKeyRecord :=
  match pool with
  | none => (none, none)
  | some db =>
    let t := saveApiKeyTable db.api_keys nextId now domain apiKey description
    (some { db with api_keys := t }, t.find? (fun r => r.domain == jsToLower domain))

/-- The `UPDATE api_keys ... WHERE id = $..` of `updateApiKey`: only the
provided fields among `api_key`, `description`, `is_active` are set (plus
`updated_at`); with no provided field the query is skipped and `null`
returned, and an unknown id updates nothing.  The `Bool` reports whether a
record was updated (`result.rows[0]` non-null). -/
def updateApiKeyTable (table : List ApiKeyRecord) (now id : Nat)
    (apiKey description : Option String) (isActive : Option Bool) :
    List ApiKeyRecord × Bool :=
  if apiKey.isNone && description.isNone && isActive.isNone then (table, false)
  else if table.any (fun r => r.id == id) then
    (table.map (fun r =>
      if r.id = id then
        { r with api_key := apiKey.getD r.api_key
                 description := description.getD r.description
                 is_active := isActive.getD r.is_active
                 updated_at := now }
      else r), true)
  else (table, false)

/-- `updateApiKey` from `src/database.js`. -/
def updateApiKey (pool : Option Db) (now id : Nat)
    (apiKey description : Option String) (isActive : Option Bool) :
    Option Db × Bool :=
  match pool with
  | none => (none, false)
  | some db =>
    let (t, ok) := updateApiKeyTable db.api_keys now id apiKey description isActive
    (some { db with api_keys := t }, ok)

/-- The `DELETE FROM api_keys WHERE id = $..` of `deleteApiKey`; the `Bool`
is `rowCount > 0`. -/
def deleteApiKeyTable (table : List ApiKeyRecord) (id : Nat) :
    List ApiKeyRecord × Bool :=
  (table.filter (fun r => !(r.id == id)), table.any (fun r => r.id == id))

/-- `deleteApiKey` from `src/database.js`: `if (!pool) return false`. -/
def deleteApiKey (pool : Option Db) (id : Nat) : Option Db × Bool :=
  match pool with
  | none => (none, false)
  | some db =>
    let (t, ok) := deleteApiKeyTable db.api_keys id
    (some { db with api_keys := t }, ok)

/-- Build a JS object from `(key, value)` pairs by successive assignment
(`forEach(row => map[row.domain] = row.api_key)`). -/
def objOfPairs (l : List (String × String)) : List (String × String) :=
  l.foldl (fun m p => objInsert m p.1 p.2) []

/-- The `(domain, api_key)` pairs of the active records, in table order
(the `SELECT domain, api_key FROM api_keys WHERE is_active = true`). -/
def activeKeyPairs (table : List ApiKeyRecord) : List (String × String) :=
  (table.filter (fun r => r.is_active)).map (fun r => (r.domain, r.api_key))

/-- The `SELECT domain, api_key FROM api_keys WHERE is_active = true` of
`getApiKeysMap`, folded into a domain → key object. -/
def getApiKeysMapTable (table : List ApiKeyRecord) : List (String × String) :=
  objOfPairs (activeKeyPairs table)

/-- `getApiKeysMap` from `src/database.js`: `if (!pool) return \x7b\x7d`
(the empty map — note this branch does not throw, so an unconfigured store
counts as a successful, empty load for the resolver's cache). -/
def getApiKeysMap (pool : Option Db) : List (String × String) :=
  match pool with
  | none => []
  | some db => getApiKeysMapTable db.api_keys

/-! ## HTTP routes (`src/server.js`) -/

/-- `MAX_ATTACHMENT_SIZE`: 10 MiB. -/
def MAX_ATTACHMENT_SIZE : Nat := 10 * 1024 * 1024

/-- `Math.floor(base64Length * 0.75)`: the approximate decoded size of a
base64 payload of the given length (0.75 is exact in floating point, so the
floor equals natural division by 4 of three times the length). -/
def decodedSizeOfLen (base64Length : Nat) : Nat := 3 * base64Length / 4

/-- The decoded size an attachment contributes to the running total
(an attachment without `content` is skipped by the loop, contributing 0
and undergoing no per-file check, which no size can fail anyway). -/
def decodedSizeOf (a : Attachment) : Nat :=
  match a.content with
  | some c => decodedSizeOfLen c.length
  | none => 0

/-- Sum of decoded attachment sizes. -/
def sumDecodedSizes : List Attachment → Nat
  | [] => 0
  | a :: rest => decodedSizeOf a + sumDecodedSizes rest

/-- The attachment validation loop of `POST /send`: walks the attachments
accumulating the decoded total, returning the per-file error at the first
attachment whose decoded size exceeds the ceiling, and otherwise the
aggregate error when the final total exceeds the ceiling. -/
def validateAttachmentsLoop : List Attachment → Nat → Option String
  | [], total =>
    if MAX_ATTACHMENT_SIZE < total then some "Total attachment size exceeds 10MB limit"
    else none
  | a :: rest, total =>
    match a.content with
    | none => validateAttachmentsLoop rest total
    | some c =>
      let decoded := decodedSizeOfLen c.length
      if MAX_ATTACHMENT_SIZE < decoded then
        some ("Attachment " ++ (jsOr a.filename (some "unnamed")).getD ""
              ++ " exceeds 10MB limit")
      else validateAttachmentsLoop rest (total + decoded)

/-- The whole attachment validation of `POST /send` (skipped when the body
has no attachments array). -/
def validateAttachments : Option (List Attachment) → Option String
  | none => none
  | some atts => validateAttachmentsLoop atts 0

/-- The domain/sender selection of `POST /send` (`src/server.js` lines
148-162): an explicit `from` keeps it and takes its address domain; else a
known explicit `domain` takes that domain's registered default sender; else
both fall back to the primary domain and its default sender.  Returns
`(fromEmail, domain)`. -/
def selectFromAndDomain (cfg : Config) (body : SendOptions) :
    Option String × Option String :=
  if jsTruthy body.fromField then
    (body.fromField, (jsSplit (body.fromField.getD "") '@')[1]?)
  else if jsTruthy body.domain ∧ cfg.EMAIL_DOMAINS.contains (body.domain.getD "") then
    (lookupStr cfg.DEFAULT_SENDERS (body.domain.getD ""), body.domain)
  else (cfg.DEFAULT_FROM, cfg.EMAIL_DOMAIN)

/-- The HTTP response of `POST /send`. -/
inductive SendResponse where
  | ok : ProviderOk → Option String → SendResponse
  | badRequest : String → SendResponse
  | fail : Nat → String → SendResponse
deriving DecidableEq, Repr

/-- Everything `POST /send` produces: the response, the credential cache
state afterwards, the store afterwards, and the provider requests issued. -/
structure PostSendResult where
  response : SendResponse
  cache : CacheState
  db : Option Db
  upstreamCalls : List SendPayload
deriving DecidableEq, Repr

/-- The `POST /send` route handler (`src/server.js` lines 111-190):
required-field check, attachment validation, domain/sender selection,
`sendEmail`, then best-effort recording of the Outbound Message when the
database is available (`isDatabaseAvailable()`), and a 200/4xx/5xx
response.  A thrown `sendEmail` error is caught and returned with
`err.status || 500`. -/
def routePostSend (cfg : Config) (st : CacheState) (now : Nat)
    (store : Option (List (String × String)))
    (upstream : SendPayload → String → Except ProviderErr ProviderOk)
    (pool : Option Db) (body : SendOptions) : PostSendResult :=
  if !jsTruthyJ body.toField || !jsTruthy body.subject
      || (!jsTruthy body.html && !jsTruthy body.text) then
    ⟨.badRequest "Missing required fields: to, subject, html (or text)", st, pool, []⟩
  else
    match validateAttachments body.attachments with
    | some msg => ⟨.badRequest msg, st, pool, []⟩
    | none =>
      let (fromEmail, domain) := selectFromAndDomain cfg body
      match sendEmail cfg st now store upstream { body with fromField := fromEmail } with
      | (.ok v, st', calls) =>
        let pool' :=
          if pool.isSome then
            (saveEmail pool now
              { resendId := some v.id, domain := domain, fromField := fromEmail
                toField := body.toField, cc := body.cc, bcc := body.bcc
                subject := body.subject, html := body.html, text := body.text
                status := "sent" }).1
          else pool
        ⟨.ok v domain, st', pool', calls⟩
      | (.err s m, st', calls) => ⟨.fail s m, st', pool, calls⟩

/-- The `POST /api-keys` route handler (create or update, then
`clearApiKeysCache()`); a missing `domain` or `api_key` is a 400 with no
write and no cache clear.  Returns the store and the cache state after. -/
def routePostApiKeys (db : Db) (st : CacheState) (nextId now : Nat)
    (domain apiKey description : Option String) : Db × CacheState :=
  if !jsTruthy domain || !jsTruthy apiKey then (db, st)
  else
    ({ db with api_keys := saveApiKeyTable db.api_keys nextId now
                 (domain.getD "") (apiKey.getD "") ((jsOr description (some "")).getD "") },
     clearApiKeysCache st)

/-- The `PATCH /api-keys/:id` route handler: `updateApiKey`, then
`clearApiKeysCache()` only when a record was found and updated (a `null`
result is a 404 that returns before the cache clear). -/
def routePatchApiKeys (db : Db) (st : CacheState) (now id : Nat)
    (apiKey description : Option String) (isActive : Option Bool) :
    (Db × Bool) × CacheState :=
  let (t, ok) := updateApiKeyTable db.api_keys now id apiKey description isActive
  (({ db with api_keys := t }, ok), if ok then clearApiKeysCache st else st)

/-- The `DELETE /api-keys/:id` route handler: `deleteApiKey`, then
`clearApiKeysCache()` only when a record was deleted (otherwise 404,
returned before the cache clear). -/
def routeDeleteApiKeys (db : Db) (st : CacheState) (id : Nat) :
    (Db × Bool) × CacheState :=
  let (t, ok) := deleteApiKeyTable db.api_keys id
  (({ db with api_keys := t }, ok), if ok then clearApiKeysCache st else st)

/-- The deferred content fetch scheduled by `POST /webhook` after saving an
inbound stub: `getReceivedEmailWithRetry` with 3 attempts, then
`updateReceivedEmail` with the fetched `html`/`text`/`headers`; if every
attempt failed the rethrown error is caught and merely logged, leaving the
table untouched. -/
def webhookContentFetch (table : List ReceivedRow) (emailId : String)
    (outcome : Nat → Option EmailContent) : List ReceivedRow :=
  match (getReceivedEmailWithRetry outcome 3).1 with
  | some c => (updateReceivedEmailTable table emailId c).1
  | none => table

/-! ## Claim C1: behaviour of credential resolution on a failed store read -/

/-- Claim C1 (amended): when `getApiKeyForDomain` attempts a cache reload
and the credential-store read fails, resolution does not raise and the
previously cached mapping and its load timestamp are left unchanged; but
the stale cache is not consulted on this failure path — resolution falls
back directly to the static per-domain environment mapping and then the
global default credential. -/
theorem c1_store_failure_env_fallback (cfg : Config) (st : CacheState)
    (now : Nat) (d : String) (hd : jsTruthy (some d) = true)
    (hreload : st.dbApiKeysCache = none
               ∨ API_KEYS_CACHE_TTL < now - st.dbApiKeysCacheTime) :
    getApiKeyForDomain cfg st now none (some d)
      = (envApiKeyFallback cfg (jsToLower d), st) := by
  unfold getApiKeyForDomain
  rw [hd]
  simp only [Bool.not_true, Bool.false_eq_true, if_false]
  rw [if_pos hreload]
  rfl

/-- Claim C1, witness for the amended theorem at a concrete expired cache
and failing store. -/
theorem c1_store_failure_env_fallback_witness :
    jsTruthy (some "d.com") = true
    ∧ ((⟨some [("d.com", "stalekey")], 0⟩ : CacheState).dbApiKeysCache = none
       ∨ API_KEYS_CACHE_TTL
           < 70000 - (⟨some [("d.com", "stalekey")], 0⟩ : CacheState).dbApiKeysCacheTime)
    ∧ getApiKeyForDomain
        ⟨some "defaultkey", [("d.com", "envkey")], ["d.com"], []⟩
        ⟨some [("d.com", "stalekey")], 0⟩ 70000 none (some "d.com")
      = (envApiKeyFallback
          ⟨some "defaultkey", [("d.com", "envkey")], ["d.com"], []⟩
          (jsToLower "d.com"), ⟨some [("d.com", "stalekey")], 0⟩) :=
  ⟨by decide, by decide,
   c1_store_failure_env_fallback
     ⟨some "defaultkey", [("d.com", "envkey")], ["d.com"], []⟩
     ⟨some [("d.com", "stalekey")], 0⟩ 70000 "d.com" (by decide) (by decide)⟩

/-- Claim C1, counterexample to the claim as stated: with the domain present
in the stale cache (value `"stalekey"`), a reload attempted (cache 70 s old,
TTL 60 s) and the store read failing, resolution returns the environment
mapping's `"envkey"`, not the stale cache's `"stalekey"` — the stale cache
is not looked up. -/
theorem c1_stale_cache_not_consulted_cex :
    getApiKeyForDomain
        ⟨some "defaultkey", [("d.com", "envkey")], ["d.com"], []⟩
        ⟨some [("d.com", "stalekey")], 0⟩ 70000 none (some "d.com")
      = (some "envkey", ⟨some [("d.com", "stalekey")], 0⟩)
    ∧ lookupStr [("d.com", "stalekey")] (jsToLower "d.com") = some "stalekey"
    ∧ ("envkey" : String) ≠ "stalekey" := by
  refine ⟨by decide, by decide, by decide⟩

/-! ## Claim C10: the credential upsert always leaves the record active -/

/-- Claim C10: for every existing credential record for the (lower-cased)
domain — including a deactivated one — `saveApiKey` replaces the secret and
description, refreshes `updated_at`, and forcibly sets `is_active = true`
(keeping id and `created_at`), without adding a row; so a deactivated
credential is silently reactivated. -/
theorem c10_saveApiKey_reactivates (table : List ApiKeyRecord) (nextId now : Nat)
    (domain apiKey description : String) (r : ApiKeyRecord)
    (hr : r ∈ table) (hdom : r.domain = jsToLower domain) :
    { r with api_key := apiKey, description := description
             updated_at := now, is_active := true }
      ∈ saveApiKeyTable table nextId now domain apiKey description
    ∧ (saveApiKeyTable table nextId now domain apiKey description).length
        = table.length := by
  unfold saveApiKeyTable
  have hany : table.any (fun r' => r'.domain == jsToLower domain) = true := by
    rw [List.any_eq_true]
    exact ⟨r, hr, by simp [hdom]⟩
  rw [if_pos hany]
  refine ⟨?_, by simp⟩
  have hmem := List.mem_map_of_mem
    (f := fun r' => if r'.domain = jsToLower domain then
        { r' with api_key := apiKey, description := description
                  updated_at := now, is_active := true }
      else r') hr
  simpa [hdom] using hmem

/-- Claim C10, witness: a deactivated record for `d.com` is reactivated with
the new secret by a subsequent `saveApiKey` for the same domain. -/
theorem c10_saveApiKey_reactivates_witness :
    (⟨1, "d.com", "oldkey", "old", false, 5, 5⟩ : ApiKeyRecord)
        ∈ [(⟨1, "d.com", "oldkey", "old", false, 5, 5⟩ : ApiKeyRecord)]
    ∧ (⟨1, "d.com", "oldkey", "old", false, 5, 5⟩ : ApiKeyRecord).domain
        = jsToLower "d.com"
    ∧ (⟨1, "d.com", "newkey", "desc", true, 5, 99⟩ : ApiKeyRecord)
        ∈ saveApiKeyTable [⟨1, "d.com", "oldkey", "old", false, 5, 5⟩] 2 99
            "d.com" "newkey" "desc"
    ∧ (saveApiKeyTable [(⟨1, "d.com", "oldkey", "old", false, 5, 5⟩ : ApiKeyRecord)]
        2 99 "d.com" "newkey" "desc").length = 1 := by
  have h := c10_saveApiKey_reactivates
    [⟨1, "d.com", "oldkey", "old", false, 5, 5⟩] 2 99 "d.com" "newkey" "desc"
    ⟨1, "d.com", "oldkey", "old", false, 5, 5⟩ (by decide) (by decide)
  exact ⟨by decide, by decide, h.1, h.2⟩

/-! ## Claim C4: idempotent inbound-arrival write -/

/-- Once a row with the given `email_id` is present, further
`saveReceivedEmail` writes carrying that id are no-ops on the table. -/
theorem saveReceived_noop_of_present (e : String) (rest : List ReceivedData) :
    ∀ (t : List ReceivedRow),
    (∀ b ∈ rest, b.emailId = some e) →
    t.any (fun r => r.email_id == some e) = true →
    rest.foldl (fun tb d => (saveReceivedEmailTable tb d).1) t = t := by
  induction rest with
  | nil => intro t _ _; rfl
  | cons b bs ih =>
    intro t hall hany
    have hb : b.emailId = some e := hall b (List.mem_cons_self b bs)
    have hstep : (saveReceivedEmailTable t b).1 = t := by
      simp [saveReceivedEmailTable, hb, hany]
    rw [List.foldl_cons, hstep]
    exact ih t (fun x hx => hall x (List.mem_cons_of_mem _ hx)) hany

/-- Claim C4: for every sequence of webhook arrivals carrying the same
provider message id, applied to a table with no row for that id, exactly one
Inbound Message row is stored, and it is the row built from the first
arrival (first write wins; later arrivals are no-ops). -/
theorem c4_saveReceivedEmail_idempotent (t : List ReceivedRow) (e : String)
    (a : ReceivedData) (rest : List ReceivedData)
    (ha : a.emailId = some e)
    (hrest : ∀ b ∈ rest, b.emailId = some e)
    (ht : t.any (fun r => r.email_id == some e) = false) :
    (a :: rest).foldl (fun tb d => (saveReceivedEmailTable tb d).1) t
        = t ++ [receivedRowOf a]
    ∧ (((a :: rest).foldl (fun tb d => (saveReceivedEmailTable tb d).1) t).filter
        (fun r => r.email_id == some e)).length = 1 := by
  have hstep : (saveReceivedEmailTable t a).1 = t ++ [receivedRowOf a] := by
    simp [saveReceivedEmailTable, ha, ht]
  have hany : (t ++ [receivedRowOf a]).any (fun r => r.email_id == some e) = true := by
    rw [List.any_append]
    have : (receivedRowOf a).email_id = some e := by simp [receivedRowOf, ha]
    simp [this]
  have hfold : (a :: rest).foldl (fun tb d => (saveReceivedEmailTable tb d).1) t
      = t ++ [receivedRowOf a] := by
    rw [List.foldl_cons, hstep]
    exact saveReceived_noop_of_present e rest _ hrest hany
  refine ⟨hfold, ?_⟩
  rw [hfold, List.filter_append]
  have htf : t.filter (fun r => r.email_id == some e) = [] := by
    rw [List.filter_eq_nil_iff]
    intro r hr
    have := List.any_eq_false.mp ht r hr
    simpa using this
  have hrow : (receivedRowOf a).email_id = some e := by simp [receivedRowOf, ha]
  simp [htf, hrow]

/-- Claim C4, witness: two arrivals with provider id `em1` (the second with
a different subject) on an empty table store exactly the first arrival's
row. -/
theorem c4_saveReceivedEmail_idempotent_witness :
    ([(⟨some "em1", none, some "d.com", some "x@y.com", some (.str "u@d.com"),
        some "first", none, none, none, none, none⟩ : ReceivedData),
      ⟨some "em1", none, some "d.com", some "x@y.com", some (.str "u@d.com"),
        some "second", none, none, none, none, none⟩]).foldl
        (fun tb d => (saveReceivedEmailTable tb d).1) []
      = [receivedRowOf ⟨some "em1", none, some "d.com", some "x@y.com",
          some (.str "u@d.com"), some "first", none, none, none, none, none⟩] := by
  have h := c4_saveReceivedEmail_idempotent [] "em1"
    ⟨some "em1", none, some "d.com", some "x@y.com", some (.str "u@d.com"),
      some "first", none, none, none, none, none⟩
    [⟨some "em1", none, some "d.com", some "x@y.com", some (.str "u@d.com"),
      some "second", none, none, none, none, none⟩]
    (by decide) (by decide) (by decide)
  simpa using h.1

/-! ## Claim C5: content-fetch retry with 0/1s/2s backoff -/

/-- Claim C5: `getReceivedEmailWithRetry` with the default 3 retries makes
at most 3 provider calls, waiting 0 ms, 1000 ms and 2000 ms before the
first, second and third attempt respectively; whichever attempt succeeds
first ends the loop with its content.  Via the webhook's deferred fetch,
a success (e.g. on the third attempt after two failures) updates the stored
Inbound Message's body/text/header fields with the fetched content (there is
no error column, and the update touches nothing else), while three failures
leave the table — in particular the stub row — unmodified. -/
theorem c5_content_fetch_retry (outcome : Nat → Option EmailContent)
    (table : List ReceivedRow) (emailId : String) (c : EmailContent) :
    (outcome 0 = some c → getReceivedEmailWithRetry outcome 3 = (some c, [0]))
    ∧ (outcome 0 = none → outcome 1 = some c →
        getReceivedEmailWithRetry outcome 3 = (some c, [0, 1000]))
    ∧ (outcome 0 = none → outcome 1 = none → outcome 2 = some c →
        getReceivedEmailWithRetry outcome 3 = (some c, [0, 1000, 2000]))
    ∧ (outcome 0 = none → outcome 1 = none → outcome 2 = none →
        getReceivedEmailWithRetry outcome 3 = (none, [0, 1000, 2000]))
    ∧ (outcome 0 = none → outcome 1 = none → outcome 2 = some c →
        webhookContentFetch table emailId outcome
          = (updateReceivedEmailTable table emailId c).1)
    ∧ (outcome 0 = none → outcome 1 = none → outcome 2 = none →
        webhookContentFetch table emailId outcome = table)
    ∧ (∀ r ∈ table, r.email_id = some emailId →
        ∀ h tx hd, c = ⟨some h, some tx, some hd⟩ → jsTruthyS hd = true →
        outcome 0 = none → outcome 1 = none → outcome 2 = some c →
        { r with html_content := some h, text_content := some tx, headers := hd }
          ∈ webhookContentFetch table emailId outcome) := by
  refine ⟨?_, ?_, ?_, ?_, ?_, ?_, ?_⟩
  · intro h0
    simp [getReceivedEmailWithRetry, getReceivedEmailWithRetryAux, h0]
  · intro h0 h1
    simp [getReceivedEmailWithRetry, getReceivedEmailWithRetryAux, h0, h1]
  · intro h0 h1 h2
    simp [getReceivedEmailWithRetry, getReceivedEmailWithRetryAux, h0, h1, h2]
  · intro h0 h1 h2
    simp [getReceivedEmailWithRetry, getReceivedEmailWithRetryAux, h0, h1, h2]
  · intro h0 h1 h2
    simp [webhookContentFetch, getReceivedEmailWithRetry,
          getReceivedEmailWithRetryAux, h0, h1, h2]
  · intro h0 h1 h2
    simp [webhookContentFetch, getReceivedEmailWithRetry,
          getReceivedEmailWithRetryAux, h0, h1, h2]
  · intro r hr hid h tx hd hc hhd h0 h1 h2
    have hfetch : webhookContentFetch table emailId outcome
        = (updateReceivedEmailTable table emailId c).1 := by
      simp [webhookContentFetch, getReceivedEmailWithRetry,
            getReceivedEmailWithRetryAux, h0, h1, h2]
    rw [hfetch, hc]
    simp only [updateReceivedEmailTable, jsTruthy, hhd, Option.isNone_some,
      Bool.not_true, Bool.and_false, Bool.false_and, Bool.false_eq_true, if_false]
    have hmem := List.mem_map_of_mem
      (f := fun (r' : ReceivedRow) =>
        if r'.email_id = some emailId then
          { r' with
              html_content := if (some h : Option String).isSome then some h
                              else r'.html_content
              text_content := if (some tx : Option String).isSome then some tx
                              else r'.text_content
              headers := if jsTruthy (some hd) then (some hd).getD r'.headers
                         else r'.headers }
        else r') hr
    simpa [hid, jsTruthy, hhd] using hmem


/-- Claim C5, witness: an outcome failing twice and succeeding on the third
attempt, over a one-stub table, yields 3 attempts with waits 0/1000/2000 and
the stub's body fields populated. -/
theorem c5_content_fetch_retry_witness :
    getReceivedEmailWithRetry
        (fun i => if i = 2 then some ⟨some "h", some "t", some "hh"⟩ else none) 3
      = (some ⟨some "h", some "t", some "hh"⟩, [0, 1000, 2000])
    ∧ (⟨some "em1", none, "d.com", some "x@y.com", some "u@d.com", some "s",
          some "h", some "t", "[]", "hh", "\x7b\x7d"⟩ : ReceivedRow)
        ∈ webhookContentFetch
            [⟨some "em1", none, "d.com", some "x@y.com", some "u@d.com", some "s",
               none, none, "[]", "\x7b\x7d", "\x7b\x7d"⟩] "em1"
            (fun i => if i = 2 then some ⟨some "h", some "t", some "hh"⟩ else none)
    ∧ webhookContentFetch
        [⟨some "em1", none, "d.com", some "x@y.com", some "u@d.com", some "s",
           none, none, "[]", "\x7b\x7d", "\x7b\x7d"⟩] "em1" (fun _ => none)
      = [⟨some "em1", none, "d.com", some "x@y.com", some "u@d.com", some "s",
           none, none, "[]", "\x7b\x7d", "\x7b\x7d"⟩] := by
  have h := c5_content_fetch_retry
    (fun i => if i = 2 then some ⟨some "h", some "t", some "hh"⟩ else none)
    [⟨some "em1", none, "d.com", some "x@y.com", some "u@d.com", some "s",
       none, none, "[]", "\x7b\x7d", "\x7b\x7d"⟩] "em1"
    ⟨some "h", some "t", some "hh"⟩
  have hfail := c5_content_fetch_retry (fun _ => none)
    [⟨some "em1", none, "d.com", some "x@y.com", some "u@d.com", some "s",
       none, none, "[]", "\x7b\x7d", "\x7b\x7d"⟩] "em1"
    ⟨some "h", some "t", some "hh"⟩
  refine ⟨h.2.2.1 (by decide) (by decide) (by decide), ?_, ?_⟩
  · have hm := h.2.2.2.2.2.2
      ⟨some "em1", none, "d.com", some "x@y.com", some "u@d.com", some "s",
        none, none, "[]", "\x7b\x7d", "\x7b\x7d"⟩ (by decide) (by decide)
      "h" "t" "hh" rfl (by decide) (by decide) (by decide) (by decide)
    simpa using hm
  · exact hfail.2.2.2.2.2.1 rfl rfl rfl



/-! ## Claim C6: independent batch dispatch, order-preserving results -/

/-- Indexing lemma for the result mapper of `sendBatch`. -/
theorem settleAllFrom_getElem (l : List (Except ProviderErr ProviderOk)) :
    ∀ (i j : Nat), (settleAllFrom i l)[j]? = (l[j]?).map (fun r => settleOf (i + j) r) := by
  induction l with
  | nil => intro i j; simp [settleAllFrom]
  | cons r rest ih =>
    intro i j
    cases j with
    | zero => simp [settleAllFrom]
    | succ j =>
      simp only [settleAllFrom, List.getElem?_cons_succ, ih (i + 1) j]
      have : i + 1 + j = i + (j + 1) := by omega
      rw [this]

/-- Claim C6: `sendBatch` on N requests returns exactly N results; the j-th
result is the settlement of the j-th request alone (input order preserved,
items independent); and when exactly item k fails upstream, exactly the k-th
result is marked failed and all others succeeded, each result carrying its
own index. -/
theorem c6_sendBatch_per_item (send : SendOptions → Except ProviderErr ProviderOk)
    (emails : List SendOptions) :
    (sendBatch send emails).length = emails.length
    ∧ (∀ j, (sendBatch send emails)[j]?
          = (emails[j]?).map (fun e => settleOf j (send e)))
    ∧ (∀ (k : Nat) (ek : SendOptions), emails[k]? = some ek →
        (∃ err, send ek = .error err) →
        (∀ (j : Nat) (ej : SendOptions), j ≠ k → emails[j]? = some ej →
          ∃ v, send ej = .ok v) →
        ∀ (i : Nat) (r : BatchItemResult), (sendBatch send emails)[i]? = some r →
          r.index = i ∧ (r.success = false ↔ i = k)) := by
  have hlen : (sendBatch send emails).length = emails.length := by
    have : ∀ (l : List (Except ProviderErr ProviderOk)) (i : Nat),
        (settleAllFrom i l).length = l.length := by
      intro l
      induction l with
      | nil => intro i; rfl
      | cons r rest ih => intro i; simp [settleAllFrom, ih]
    simp [sendBatch, this, List.length_map]
  have hidx : ∀ j, (sendBatch send emails)[j]?
      = (emails[j]?).map (fun e => settleOf j (send e)) := by
    intro j
    rw [sendBatch, settleAllFrom_getElem, List.getElem?_map]
    cases emails[j]? with
    | none => rfl
    | some e => simp
  refine ⟨hlen, hidx, ?_⟩
  intro k ek hk ⟨err, herr⟩ hok i r hr
  rw [hidx i] at hr
  by_cases hik : i = k
  · subst hik
    rw [hk, Option.map_some'] at hr
    obtain rfl := (Option.some_inj.mp hr).symm
    rw [herr]
    exact ⟨rfl, by simp [settleOf]⟩
  · cases hei : emails[i]? with
    | none => rw [hei] at hr; cases hr
    | some ei =>
      rw [hei, Option.map_some'] at hr
      obtain ⟨v, hv⟩ := hok i ei hik hei
      obtain rfl := (Option.some_inj.mp hr).symm
      rw [hv]
      exact ⟨rfl, by simp [settleOf, hik]⟩

/-- Claim C6, witness: a 3-item batch where the middle item fails upstream
yields 3 results in order, with exactly index 1 failed. -/
theorem c6_sendBatch_per_item_witness :
    (sendBatch
        (fun o => if o.subject = some "bad" then Except.error ⟨422, "boom"⟩
                  else Except.ok ⟨"id"⟩)
        [⟨some (.str "a@x.com"), some "ok1", some "b", none, none, none, none, none, none⟩,
         ⟨some (.str "b@x.com"), some "bad", some "b", none, none, none, none, none, none⟩,
         ⟨some (.str "c@x.com"), some "ok2", some "b", none, none, none, none, none, none⟩]).length = 3
    ∧ (sendBatch
        (fun o => if o.subject = some "bad" then Except.error ⟨422, "boom"⟩
                  else Except.ok ⟨"id"⟩)
        [⟨some (.str "a@x.com"), some "ok1", some "b", none, none, none, none, none, none⟩,
         ⟨some (.str "b@x.com"), some "bad", some "b", none, none, none, none, none, none⟩,
         ⟨some (.str "c@x.com"), some "ok2", some "b", none, none, none, none, none, none⟩]).map
        (fun r => (r.index, r.success))
      = [(0, true), (1, false), (2, true)] := by
  have h := c6_sendBatch_per_item
    (fun o => if o.subject = some "bad" then Except.error ⟨422, "boom"⟩
              else Except.ok ⟨"id"⟩)
    [⟨some (.str "a@x.com"), some "ok1", some "b", none, none, none, none, none, none⟩,
     ⟨some (.str "b@x.com"), some "bad", some "b", none, none, none, none, none, none⟩,
     ⟨some (.str "c@x.com"), some "ok2", some "b", none, none, none, none, none, none⟩]
  exact ⟨h.1, by decide⟩



/-! ## Claim C7: oversized attachments rejected before any provider call -/

/-- Whether a `POST /send` response is the 400 validation failure. -/
def isBadRequestResp : SendResponse → Bool
  | .badRequest _ => true
  | _ => false

/-- If the validation loop accepts, every attachment is within the per-file
ceiling and the accumulated total stays within the aggregate ceiling. -/
theorem validateAttachmentsLoop_none (atts : List Attachment) :
    ∀ total, validateAttachmentsLoop atts total = none →
      (∀ a ∈ atts, decodedSizeOf a ≤ MAX_ATTACHMENT_SIZE)
      ∧ total + sumDecodedSizes atts ≤ MAX_ATTACHMENT_SIZE := by
  induction atts with
  | nil =>
    intro total h
    simp only [validateAttachmentsLoop] at h
    refine ⟨by simp, ?_⟩
    by_cases hlt : MAX_ATTACHMENT_SIZE < total
    · rw [if_pos hlt] at h; cases h
    · simp [sumDecodedSizes]; omega
  | cons a rest ih =>
    intro total h
    cases hc : a.content with
    | none =>
      rw [validateAttachmentsLoop, hc] at h
      obtain ⟨h1, h2⟩ := ih total h
      refine ⟨?_, ?_⟩
      · intro b hb
        rcases List.mem_cons.mp hb with rfl | hb
        · simp [decodedSizeOf, hc]
        · exact h1 b hb
      · simp only [sumDecodedSizes, decodedSizeOf, hc]
        omega
    | some c =>
      simp only [validateAttachmentsLoop, hc] at h
      by_cases hd : MAX_ATTACHMENT_SIZE < decodedSizeOfLen c.length
      · rw [if_pos hd] at h; cases h
      · rw [if_neg hd] at h
        obtain ⟨h1, h2⟩ := ih (total + decodedSizeOfLen c.length) h
        refine ⟨?_, ?_⟩
        · intro b hb
          rcases List.mem_cons.mp hb with rfl | hb
          · simp only [decodedSizeOf, hc]; omega
          · exact h1 b hb
        · simp only [sumDecodedSizes, decodedSizeOf, hc]
          omega

/-- Claim C7: a send request whose attachments violate the 10 MiB per-file
ceiling or the 10 MiB aggregate ceiling (decoded sizes) is answered with the
400 validation failure, with no request issued to the upstream provider, the
store untouched and the credential cache untouched. -/
theorem c7_oversized_attachments_rejected (cfg : Config) (st : CacheState)
    (now : Nat) (store : Option (List (String × String)))
    (upstream : SendPayload → String → Except ProviderErr ProviderOk)
    (pool : Option Db) (body : SendOptions) (atts : List Attachment)
    (hatts : body.attachments = some atts)
    (hover : (∃ a ∈ atts, MAX_ATTACHMENT_SIZE < decodedSizeOf a)
             ∨ MAX_ATTACHMENT_SIZE < sumDecodedSizes atts)
    (hto : jsTruthyJ body.toField = true) (hsub : jsTruthy body.subject = true)
    (hbody : jsTruthy body.html = true ∨ jsTruthy body.text = true) :
    isBadRequestResp (routePostSend cfg st now store upstream pool body).response = true
    ∧ (routePostSend cfg st now store upstream pool body).upstreamCalls = []
    ∧ (routePostSend cfg st now store upstream pool body).db = pool
    ∧ (routePostSend cfg st now store upstream pool body).cache = st := by
  have hval : validateAttachmentsLoop atts 0 ≠ none := by
    intro hnone
    obtain ⟨h1, h2⟩ := validateAttachmentsLoop_none atts 0 hnone
    rcases hover with ⟨a, ha, hlt⟩ | hlt
    · exact absurd (h1 a ha) (by omega)
    · omega
  obtain ⟨msg, hmsg⟩ := Option.ne_none_iff_exists'.mp hval
  have hcond : (!jsTruthyJ body.toField || !jsTruthy body.subject
      || (!jsTruthy body.html && !jsTruthy body.text)) = false := by
    rcases hbody with h | h <;> simp [hto, hsub, h]
  have hroute : routePostSend cfg st now store upstream pool body
      = ⟨.badRequest msg, st, pool, []⟩ := by
    rw [routePostSend, hcond]
    simp only [Bool.false_eq_true, if_false]
    rw [hatts]
    simp only [validateAttachments, hmsg]
  rw [hroute]
  exact ⟨rfl, rfl, rfl, rfl⟩

/-- Claim C7, witness: a single 20,000,000-character base64 payload decodes
to 15,000,000 bytes, beyond the 10 MiB ceiling, so the send is rejected with
no provider call. -/
theorem c7_oversized_attachments_rejected_witness :
    (routePostSend ⟨some "k", [], ["d.com"], []⟩ ⟨none, 0⟩ 0 (some [])
        (fun _ _ => Except.ok ⟨"id"⟩) none
        ⟨some (.str "a@x.com"), some "Hi", some "<p>hi</p>", none, none, none, none,
          some [⟨some "big.bin", some (String.mk (List.replicate 20000000 'a'))⟩],
          none⟩).upstreamCalls = []
    ∧ isBadRequestResp
        (routePostSend ⟨some "k", [], ["d.com"], []⟩ ⟨none, 0⟩ 0 (some [])
          (fun _ _ => Except.ok ⟨"id"⟩) none
          ⟨some (.str "a@x.com"), some "Hi", some "<p>hi</p>", none, none, none, none,
            some [⟨some "big.bin", some (String.mk (List.replicate 20000000 'a'))⟩],
            none⟩).response = true := by
  have hgen : ∀ (nm : Option String) (s : String),
      decodedSizeOf ⟨nm, some s⟩ = 3 * s.length / 4 := fun _ _ => rfl
  have hbig : MAX_ATTACHMENT_SIZE
      < decodedSizeOf ⟨some "big.bin", some (String.mk (List.replicate 20000000 'a'))⟩ := by
    have hlen : (String.mk (List.replicate 20000000 'a')).length = 20000000 := by
      show (List.replicate 20000000 'a').length = 20000000
      exact List.length_replicate _ _
    rw [hgen (some "big.bin") (String.mk (List.replicate 20000000 'a')), hlen]
    norm_num [MAX_ATTACHMENT_SIZE]
  have h := c7_oversized_attachments_rejected ⟨some "k", [], ["d.com"], []⟩
    ⟨none, 0⟩ 0 (some []) (fun _ _ => Except.ok ⟨"id"⟩) none
    ⟨some (.str "a@x.com"), some "Hi", some "<p>hi</p>", none, none, none, none,
      some [⟨some "big.bin", some (String.mk (List.replicate 20000000 'a'))⟩], none⟩
    [⟨some "big.bin", some (String.mk (List.replicate 20000000 'a'))⟩]
    rfl
    (Or.inl ⟨⟨some "big.bin", some (String.mk (List.replicate 20000000 'a'))⟩,
      List.mem_singleton.mpr rfl, hbig⟩)
    rfl rfl (Or.inl rfl)
  exact ⟨h.2.1, h.1⟩



/-! ## Claim C3: absent everywhere means no credential, send fails early -/

/-- When the (lower-cased) domain has no truthy entry in the cached mapping,
none in the store read, none in the environment mapping, and no default key
is configured, `getApiKeyForDomain` resolves to `none`. -/
theorem getApiKeyForDomain_none_of_absent (cfg : Config) (st : CacheState)
    (now : Nat) (store : Option (List (String × String))) (d : String)
    (hd : jsTruthyS d = true)
    (hcache : ∀ m, st.dbApiKeysCache = some m →
      jsTruthy (lookupStr m (jsToLower d)) = false)
    (hstore : ∀ m, store = some m →
      jsTruthy (lookupStr m (jsToLower d)) = false)
    (henv : jsTruthy (lookupStr cfg.ENV_API_KEYS (jsToLower d)) = false)
    (hdefault : cfg.RESEND_API_KEY = none) :
    (getApiKeyForDomain cfg st now store (some d)).1 = none := by
  have hdT : jsTruthy (some d) = true := hd
  have hfall : envApiKeyFallback cfg (jsToLower d) = none := by
    rw [envApiKeyFallback, jsOr, if_neg (by rw [henv]; exact Bool.false_ne_true),
      hdefault]
  unfold getApiKeyForDomain
  rw [hdT]
  simp only [Bool.not_true, Bool.false_eq_true, if_false, Option.getD_some]
  by_cases hrel : st.dbApiKeysCache = none
      ∨ API_KEYS_CACHE_TTL < now - st.dbApiKeysCacheTime
  · rw [if_pos hrel]
    cases store with
    | some m =>
      have hm := hstore m rfl
      simp [hm, hfall]
    | none => simp [hfall]
  · rw [if_neg hrel]
    cases hcs : st.dbApiKeysCache with
    | some m =>
      have hm := hcache m hcs
      simp [hm, hfall]
    | none => simp [hfall]

/-- Claim C3: for a domain present neither in the credential cache, nor in
the credential store, nor in the static environment fallback, with no
default credential configured, `getApiKeyForDomain` yields `none` (an absent
value, not an exception), and a send for that domain throws the
configuration error with zero HTTP requests issued to the upstream
provider. -/
theorem c3_absent_domain_no_credential (cfg : Config) (st : CacheState)
    (now : Nat) (store : Option (List (String × String)))
    (upstream : SendPayload → String → Except ProviderErr ProviderOk)
    (o : SendOptions) (d : String)
    (hd : jsTruthyS d = true) (ho : o.domain = some d)
    (hcache : ∀ m, st.dbApiKeysCache = some m →
      jsTruthy (lookupStr m (jsToLower d)) = false)
    (hstore : ∀ m, store = some m →
      jsTruthy (lookupStr m (jsToLower d)) = false)
    (henv : jsTruthy (lookupStr cfg.ENV_API_KEYS (jsToLower d)) = false)
    (hdefault : cfg.RESEND_API_KEY = none) :
    (getApiKeyForDomain cfg st now store (some d)).1 = none
    ∧ (sendEmail cfg st now store upstream o).1
        = .err 500 "No API key configured for domain"
    ∧ (sendEmail cfg st now store upstream o).2.2 = [] := by
  have hkey := getApiKeyForDomain_none_of_absent cfg st now store d hd
    hcache hstore henv hdefault
  have hdom : fromDomainOf o = some d := by
    simp [fromDomainOf, ho, jsTruthy, hd]
  refine ⟨hkey, ?_, ?_⟩ <;>
  · rw [sendEmail, hdom]
    rcases hval : getApiKeyForDomain cfg st now store (some d) with ⟨key, st2⟩
    have hf : key = none := by rw [hval] at hkey; exact hkey
    subst hf
    rfl

/-- Claim C3, witness: the unknown domain `nope.com`, an empty cache, an
empty store map, no env keys and no default key resolve to no credential,
and the send throws before any provider request. -/
theorem c3_absent_domain_no_credential_witness :
    (getApiKeyForDomain ⟨none, [], ["x.com"], [("x.com", "noreply@x.com")]⟩
        ⟨none, 0⟩ 5 (some []) (some "nope.com")).1 = none
    ∧ (sendEmail ⟨none, [], ["x.com"], [("x.com", "noreply@x.com")]⟩
        ⟨none, 0⟩ 5 (some []) (fun _ _ => Except.ok ⟨"id"⟩)
        ⟨some (.str "a@x.com"), some "Hi", some "b", none, none, none, none, none,
          some "nope.com"⟩).1
        = .err 500 "No API key configured for domain"
    ∧ (sendEmail ⟨none, [], ["x.com"], [("x.com", "noreply@x.com")]⟩
        ⟨none, 0⟩ 5 (some []) (fun _ _ => Except.ok ⟨"id"⟩)
        ⟨some (.str "a@x.com"), some "Hi", some "b", none, none, none, none, none,
          some "nope.com"⟩).2.2 = [] := by
  exact c3_absent_domain_no_credential
    ⟨none, [], ["x.com"], [("x.com", "noreply@x.com")]⟩ ⟨none, 0⟩ 5 (some [])
    (fun _ _ => Except.ok ⟨"id"⟩)
    ⟨some (.str "a@x.com"), some "Hi", some "b", none, none, none, none, none,
      some "nope.com"⟩ "nope.com"
    (by decide) rfl (by intro m hm; cases hm) (by intro m hm; cases hm; decide)
    (by decide) rfl



/-! ## Association-list lemmas for the JS object model -/

/-- Assignment makes the key's value visible. -/
theorem lookupStr_objInsert_self (m : List (String × String)) (k v : String) :
    lookupStr (objInsert m k v) k = some v := by
  induction m with
  | nil => simp [objInsert, lookupStr]
  | cons p rest ih =>
    obtain ⟨k', v'⟩ := p
    by_cases h : k' = k
    · simp [objInsert, h, lookupStr]
    · simp [objInsert, h, lookupStr, ih]

/-- Assignment to a different key does not change a lookup. -/
theorem lookupStr_objInsert_other (m : List (String × String)) (k v d : String)
    (h : k ≠ d) : lookupStr (objInsert m k v) d = lookupStr m d := by
  induction m with
  | nil => simp [objInsert, lookupStr, h]
  | cons p rest ih =>
    obtain ⟨k', v'⟩ := p
    by_cases hk : k' = k
    · subst hk
      simp [objInsert, lookupStr, h]
    · simp [objInsert, hk, lookupStr, ih]

/-- Folding assignments over pairs whose every `dL`-keyed pair carries value
`k` ends with `dL ↦ k`, provided some pair has key `dL` (or the accumulator
already maps it to `k`). -/
theorem lookupStr_foldl_objInsert (dL k : String) (l : List (String × String)) :
    ∀ m, (∀ p ∈ l, p.1 = dL → p.2 = k) →
      (l.any (fun p => p.1 == dL) = true ∨ lookupStr m dL = some k) →
      lookupStr (l.foldl (fun acc p => objInsert acc p.1 p.2) m) dL = some k := by
  induction l with
  | nil =>
    intro m _ h
    rcases h with h | h
    · simp at h
    · simpa using h
  | cons p rest ih =>
    intro m hall h
    rw [List.foldl_cons]
    by_cases hp : p.1 = dL
    · refine ih _ (fun q hq => hall q (List.mem_cons_of_mem _ hq)) (Or.inr ?_)
      have hk : p.2 = k := hall p (List.mem_cons_self p rest) hp
      rw [← hp, hk]
      exact lookupStr_objInsert_self m p.1 k
    · refine ih _ (fun q hq => hall q (List.mem_cons_of_mem _ hq)) ?_
      rcases h with hany | hm
      · left
        rcases List.any_eq_true.mp hany with ⟨q, hq, hqd⟩
        rcases List.mem_cons.mp hq with rfl | hq
        · exact absurd (by simpa using hqd) hp
        · exact List.any_eq_true.mpr ⟨q, hq, hqd⟩
      · right
        rw [lookupStr_objInsert_other m p.1 p.2 dL hp]
        exact hm

/-! ## Claim C2: admin credential writes synchronously clear the cache -/

/-- After `saveApiKey`, the active-keys map of the store maps the saved
(lower-cased) domain to the new secret. -/
theorem lookup_getApiKeysMap_saveApiKey (table : List ApiKeyRecord)
    (nextId now : Nat) (domain apiKey description : String) :
    lookupStr (getApiKeysMapTable
        (saveApiKeyTable table nextId now domain apiKey description))
      (jsToLower domain) = some apiKey := by
  rw [getApiKeysMapTable, objOfPairs, saveApiKeyTable]
  by_cases hany : table.any (fun r => r.domain == jsToLower domain) = true
  · rw [if_pos hany]
    apply lookupStr_foldl_objInsert
    · intro p hp hpd
      rcases List.mem_map.mp hp with ⟨r', hr', rfl⟩
      rcases List.mem_filter.mp hr' with ⟨hr'mem, _⟩
      rcases List.mem_map.mp hr'mem with ⟨r, _, rfl⟩
      by_cases hrd : r.domain = jsToLower domain
      · simp [hrd]
      · exfalso
        apply hrd
        rw [if_neg hrd] at hpd
        exact hpd
    · left
      rcases List.any_eq_true.mp hany with ⟨r0, hr0, hr0d⟩
      have hr0d' : r0.domain = jsToLower domain := by simpa using hr0d
      refine List.any_eq_true.mpr ?_
      refine ⟨(r0.domain, apiKey), ?_, by simp [hr0d']⟩
      refine List.mem_map.mpr ?_
      refine ⟨{ r0 with api_key := apiKey, description := description
                        updated_at := now, is_active := true }, ?_, rfl⟩
      refine List.mem_filter.mpr ⟨?_, rfl⟩
      have hmm := List.mem_map_of_mem (f := fun r =>
        if r.domain = jsToLower domain then
          { r with api_key := apiKey, description := description
                   updated_at := now, is_active := true }
        else r) hr0
      simp only [if_pos hr0d'] at hmm
      exact hmm
  · rw [if_neg hany]
    apply lookupStr_foldl_objInsert
    · intro p hp hpd
      rcases List.mem_map.mp hp with ⟨r', hr', rfl⟩
      rcases List.mem_filter.mp hr' with ⟨hr'mem, _⟩
      rcases List.mem_append.mp hr'mem with hin | hnew
      · exfalso
        have hfalse := List.any_eq_false.mp (Bool.not_eq_true _ ▸ hany) r' hin
        simp only [beq_iff_eq] at hfalse
        exact hfalse hpd
      · rcases List.mem_singleton.mp hnew with rfl
        rfl
    · left
      refine List.any_eq_true.mpr ?_
      refine ⟨(jsToLower domain, apiKey), ?_, by simp⟩
      refine List.mem_map.mpr ?_
      refine ⟨{ id := nextId, domain := jsToLower domain, api_key := apiKey
                description := description, is_active := true
                created_at := now, updated_at := now }, ?_, rfl⟩
      refine List.mem_filter.mpr ⟨List.mem_append_right _ (List.mem_singleton.mpr rfl), rfl⟩

/-- Claim C2: every admin create/update/delete of a credential record that
touches a record synchronously clears the in-memory cache (mapping `null`,
timestamp 0); from that cleared state the very next `getApiKeyForDomain`
call — at any time, so regardless of any remaining TTL — reloads the map
from the store, and for the just-saved domain returns the new secret. -/
theorem c2_admin_writes_clear_cache (cfg : Config) (db : Db) (st : CacheState)
    (nextId now now2 id : Nat) (domain apiKey : String)
    (description patchKey patchDesc : Option String) (patchActive : Option Bool)
    (hd : jsTruthyS domain = true) (hk : jsTruthyS apiKey = true) :
    (∀ st' : CacheState, clearApiKeysCache st' = ⟨none, 0⟩)
    ∧ (routePostApiKeys db st nextId now (some domain) (some apiKey) description).2
        = ⟨none, 0⟩
    ∧ ((routePatchApiKeys db st now id patchKey patchDesc patchActive).1.2 = true →
        (routePatchApiKeys db st now id patchKey patchDesc patchActive).2 = ⟨none, 0⟩)
    ∧ ((routeDeleteApiKeys db st id).1.2 = true →
        (routeDeleteApiKeys db st id).2 = ⟨none, 0⟩)
    ∧ getApiKeyForDomain cfg ⟨none, 0⟩ now2
        (some (getApiKeysMapTable
          (routePostApiKeys db st nextId now (some domain) (some apiKey)
            description).1.api_keys))
        (some domain)
      = (some apiKey,
         ⟨some (getApiKeysMapTable
           (routePostApiKeys db st nextId now (some domain) (some apiKey)
             description).1.api_keys), now2⟩) := by
  have hcond : (!jsTruthy (some domain) || !jsTruthy (some apiKey)) = false := by
    simp [jsTruthy, hd, hk]
  set desc2 := (jsOr description (some "")).getD "" with hdesc2
  have hroute : routePostApiKeys db st nextId now (some domain) (some apiKey)
      description
      = ({ db with api_keys := saveApiKeyTable db.api_keys nextId now domain apiKey desc2 },
         clearApiKeysCache st) := by
    rw [routePostApiKeys, hcond]
    simp only [Bool.false_eq_true, if_false, Option.getD_some, hdesc2]
  refine ⟨fun _ => rfl, by rw [hroute]; rfl, ?_, ?_, ?_⟩
  · intro hok
    rcases hu : updateApiKeyTable db.api_keys now id patchKey patchDesc patchActive
      with ⟨t, ok⟩
    have heq : routePatchApiKeys db st now id patchKey patchDesc patchActive
        = (({ db with api_keys := t }, ok), if ok then clearApiKeysCache st else st) := by
      simp only [routePatchApiKeys, hu]
    rw [heq] at hok ⊢
    simp only at hok
    rw [hok]
    rfl
  · intro hok
    rcases hu : deleteApiKeyTable db.api_keys id with ⟨t, ok⟩
    have heq : routeDeleteApiKeys db st id
        = (({ db with api_keys := t }, ok), if ok then clearApiKeysCache st else st) := by
      simp only [routeDeleteApiKeys, hu]
    rw [heq] at hok ⊢
    simp only at hok
    rw [hok]
    rfl
  · rw [hroute]
    have hlk := lookup_getApiKeysMap_saveApiKey db.api_keys nextId now domain apiKey desc2
    have hdT : jsTruthy (some domain) = true := hd
    rw [getApiKeyForDomain, hdT]
    simp only [Bool.not_true, Bool.false_eq_true, if_false, Option.getD_some]
    rw [if_pos (Or.inl trivial)]
    rw [hlk]
    have hkT : jsTruthy (some apiKey) = true := hk
    rw [hkT]
    simp



/-- Claim C2, witness: creating a key for `d.com` on a store holding a
record for `x.com` clears the cache; a later `PATCH` of record 7 and a
`DELETE` of record 7 also clear it; and the next resolution at `now2 = 5`
(well within any previous TTL) reloads and returns the new key. -/
theorem c2_admin_writes_clear_cache_witness :
    (routePostApiKeys ⟨[], [], [], [⟨7, "x.com", "k0", "", true, 0, 0⟩]⟩
        ⟨some [("x.com", "k0")], 100⟩ 8 200 (some "d.com") (some "newkey") none).2
      = ⟨none, 0⟩
    ∧ (routePatchApiKeys ⟨[], [], [], [⟨7, "x.com", "k0", "", true, 0, 0⟩]⟩
        ⟨some [("x.com", "k0")], 100⟩ 200 7 none none (some false)).1.2 = true
    ∧ (routePatchApiKeys ⟨[], [], [], [⟨7, "x.com", "k0", "", true, 0, 0⟩]⟩
        ⟨some [("x.com", "k0")], 100⟩ 200 7 none none (some false)).2 = ⟨none, 0⟩
    ∧ (routeDeleteApiKeys ⟨[], [], [], [⟨7, "x.com", "k0", "", true, 0, 0⟩]⟩
        ⟨some [("x.com", "k0")], 100⟩ 7).1.2 = true
    ∧ (routeDeleteApiKeys ⟨[], [], [], [⟨7, "x.com", "k0", "", true, 0, 0⟩]⟩
        ⟨some [("x.com", "k0")], 100⟩ 7).2 = ⟨none, 0⟩
    ∧ getApiKeyForDomain ⟨some "def", [], ["x.com"], []⟩ ⟨none, 0⟩ 5
        (some (getApiKeysMapTable
          (routePostApiKeys ⟨[], [], [], [⟨7, "x.com", "k0", "", true, 0, 0⟩]⟩
            ⟨some [("x.com", "k0")], 100⟩ 8 200 (some "d.com") (some "newkey")
            none).1.api_keys))
        (some "d.com")
      = (some "newkey",
         ⟨some (getApiKeysMapTable
           (routePostApiKeys ⟨[], [], [], [⟨7, "x.com", "k0", "", true, 0, 0⟩]⟩
             ⟨some [("x.com", "k0")], 100⟩ 8 200 (some "d.com") (some "newkey")
             none).1.api_keys), 5⟩) := by
  have h := c2_admin_writes_clear_cache ⟨some "def", [], ["x.com"], []⟩
    ⟨[], [], [], [⟨7, "x.com", "k0", "", true, 0, 0⟩]⟩
    ⟨some [("x.com", "k0")], 100⟩ 8 200 5 7 "d.com" "newkey" none none none
    (some false) (by decide) (by decide)
  have hpatch : (routePatchApiKeys ⟨[], [], [], [⟨7, "x.com", "k0", "", true, 0, 0⟩]⟩
      ⟨some [("x.com", "k0")], 100⟩ 200 7 none none (some false)).1.2 = true := by
    decide
  have hdel : (routeDeleteApiKeys ⟨[], [], [], [⟨7, "x.com", "k0", "", true, 0, 0⟩]⟩
      ⟨some [("x.com", "k0")], 100⟩ 7).1.2 = true := by
    decide
  exact ⟨h.2.1, hpatch, h.2.2.1 hpatch, hdel, h.2.2.2.1 hdel, h.2.2.2.2⟩



/-! ## Claim C8: graceful degradation when the store is not configured -/

/-- Claim C8: with the persistent store unavailable (`pool === null`), every
persistence operation is a no-op returning `null`/`false`/empty instead of
raising, and storage is invisible to the send path: a `POST /send` whose
upstream send succeeds still answers success, the store side untouched. -/
theorem c8_store_unavailable_noops (cfg : Config) (st : CacheState) (now : Nat)
    (store : Option (List (String × String)))
    (upstream : SendPayload → String → Except ProviderErr ProviderOk)
    (body : SendOptions) (v : ProviderOk) (st2 : CacheState)
    (calls : List SendPayload)
    (hfields : (!jsTruthyJ body.toField || !jsTruthy body.subject
        || (!jsTruthy body.html && !jsTruthy body.text)) = false)
    (hval : validateAttachments body.attachments = none)
    (hsend : sendEmail cfg st now store upstream
        { body with fromField := (selectFromAndDomain cfg body).1 }
      = (.ok v, st2, calls)) :
    (∀ (n : Nat) (d : SaveEmailData), saveEmail none n d = (none, none))
    ∧ (∀ e : WebhookEvent, saveWebhook none e = (none, none))
    ∧ (∀ d : ReceivedData, saveReceivedEmail none d = (none, none))
    ∧ (∀ (rid s : String) (d : StatusUpdateData),
        updateEmailStatus none rid s d = (none, none))
    ∧ (∀ (e : String) (c : EmailContent), updateReceivedEmail none e c = (none, none))
    ∧ getApiKeysMap none = []
    ∧ (∀ (n m : Nat) (dom k dsc : String), saveApiKey none n m dom k dsc = (none, none))
    ∧ (∀ i : Nat, deleteApiKey none i = (none, false))
    ∧ (∀ lim : Nat, getRecentEmails none lim = [])
    ∧ routePostSend cfg st now store upstream none body
        = ⟨.ok v (selectFromAndDomain cfg body).2, st2, none, calls⟩ := by
  refine ⟨fun _ _ => rfl, fun _ => rfl, fun _ => rfl, fun _ _ _ => rfl,
    fun _ _ => rfl, rfl, fun _ _ _ _ _ => rfl, fun _ => rfl, fun _ => rfl, ?_⟩
  rw [routePostSend, hfields]
  simp only [Bool.false_eq_true, if_false]
  rw [hval]
  rcases hsel : selectFromAndDomain cfg body with ⟨fe, dom⟩
  rw [hsel] at hsend
  simp only at hsend
  rw [hsend]
  simp

/-- Claim C8, witness: an unconfigured store, a valid body, and an upstream
that accepts; the route answers success with the store still absent. -/
theorem c8_store_unavailable_noops_witness :
    saveEmail none 0
        ⟨some "rid", some "d.com", some "a@d.com", some (.str "u@x.com"), none,
          none, some "s", some "h", none, "sent"⟩ = (none, none)
    ∧ getApiKeysMap none = []
    ∧ routePostSend ⟨some "def", [], ["d.com"], [("d.com", "noreply@d.com")]⟩
        ⟨none, 0⟩ 0 (some []) (fun _ _ => Except.ok ⟨"id9"⟩) none
        ⟨some (.str "u@x.com"), some "Hi", some "<p>x</p>", none, none, none, none,
          none, some "d.com"⟩
      = ⟨.ok ⟨"id9"⟩
          (selectFromAndDomain ⟨some "def", [], ["d.com"], [("d.com", "noreply@d.com")]⟩
            ⟨some (.str "u@x.com"), some "Hi", some "<p>x</p>", none, none, none, none,
              none, some "d.com"⟩).2,
         ⟨some [], 0⟩, none,
         [⟨some "noreply@d.com", some (.str "u@x.com"), some "Hi", some "<p>x</p>",
           none, none, none, none⟩]⟩ := by
  have h := c8_store_unavailable_noops
    ⟨some "def", [], ["d.com"], [("d.com", "noreply@d.com")]⟩ ⟨none, 0⟩ 0 (some [])
    (fun _ _ => Except.ok ⟨"id9"⟩)
    ⟨some (.str "u@x.com"), some "Hi", some "<p>x</p>", none, none, none, none,
      none, some "d.com"⟩
    ⟨"id9"⟩ ⟨some [], 0⟩
    [⟨some "noreply@d.com", some (.str "u@x.com"), some "Hi", some "<p>x</p>",
      none, none, none, none⟩]
    (by decide) (by decide) (by decide)
  exact ⟨h.1 0 _, h.2.2.2.2.2.1, h.2.2.2.2.2.2.2.2.2⟩



/-! ## Claim C9: domain-list and default-sender parsing -/

/-- The conditional fill step of `parseDefaultSenders`
(`if (!senders[domain]) senders[domain] = noreply@domain`). -/
def senderFillStep (m : List (String × String)) (x : String) :
    List (String × String) :=
  if jsTruthy (lookupStr m x) then m else objInsert m x ("noreply@" ++ x)

/-- A `noreply@` entry survives both fill folds: every later step either
keeps the map, re-assigns the same `noreply@` value, or touches another key. -/
theorem senderFill_keeps_noreply (d : String) (domains : List String) :
    ∀ m, lookupStr m d = some ("noreply@" ++ d) →
      lookupStr (domains.foldl senderFillStep m) d = some ("noreply@" ++ d) := by
  induction domains with
  | nil => intro m hm; exact hm
  | cons x xs ih =>
    intro m hm
    rw [List.foldl_cons]
    by_cases hx : x = d
    · subst hx
      rw [senderFillStep]
      by_cases ht : jsTruthy (lookupStr m x) = true
      · rw [if_pos ht]; exact ih m hm
      · rw [if_neg ht]
        exact ih _ (lookupStr_objInsert_self m x ("noreply@" ++ x))
    · rw [senderFillStep]
      by_cases ht : jsTruthy (lookupStr m x) = true
      · rw [if_pos ht]; exact ih m hm
      · rw [if_neg ht]
        refine ih _ ?_
        rw [lookupStr_objInsert_other m x ("noreply@" ++ x) d hx]
        exact hm

/-- The unconditional assignment fold (the no-`DEFAULT_SENDERS` branch)
keeps a `noreply@` entry as well. -/
theorem senderAssign_keeps_noreply (d : String) (domains : List String) :
    ∀ m, lookupStr m d = some ("noreply@" ++ d) →
      lookupStr (domains.foldl (fun m x => objInsert m x ("noreply@" ++ x)) m) d
        = some ("noreply@" ++ d) := by
  induction domains with
  | nil => intro m hm; exact hm
  | cons x xs ih =>
    intro m hm
    rw [List.foldl_cons]
    by_cases hx : x = d
    · subst hx
      exact ih _ (lookupStr_objInsert_self m x ("noreply@" ++ x))
    · refine ih _ ?_
      rw [lookupStr_objInsert_other m x ("noreply@" ++ x) d hx]
      exact hm

/-- A domain in the list whose entry is falsy before the conditional fill
ends mapped to `noreply@<domain>`. -/
theorem senderFill_sets_noreply (d : String) (domains : List String)
    (hd : d ∈ domains) :
    ∀ m, jsTruthy (lookupStr m d) = false →
      lookupStr (domains.foldl senderFillStep m) d = some ("noreply@" ++ d) := by
  induction domains with
  | nil => cases hd
  | cons x xs ih =>
    intro m hm
    rw [List.foldl_cons]
    by_cases hx : x = d
    · subst hx
      rw [senderFillStep, if_neg (by rw [hm]; exact Bool.false_ne_true)]
      exact senderFill_keeps_noreply x xs _ (lookupStr_objInsert_self m x _)
    · have hd' : d ∈ xs := by
        rcases List.mem_cons.mp hd with rfl | h
        · exact absurd rfl hx
        · exact h
      rw [senderFillStep]
      by_cases ht : jsTruthy (lookupStr m x) = true
      · rw [if_pos ht]; exact ih hd' m hm
      · rw [if_neg ht]
        refine ih hd' _ ?_
        rw [lookupStr_objInsert_other m x ("noreply@" ++ x) d hx]
        exact hm

/-- A domain in the list ends mapped to `noreply@<domain>` under the
unconditional assignment fold. -/
theorem senderAssign_sets_noreply (d : String) (domains : List String)
    (hd : d ∈ domains) :
    ∀ m, lookupStr (domains.foldl (fun m x => objInsert m x ("noreply@" ++ x)) m) d
        = some ("noreply@" ++ d) := by
  induction domains with
  | nil => cases hd
  | cons x xs ih =>
    intro m
    rw [List.foldl_cons]
    by_cases hx : x = d
    · subst hx
      exact senderAssign_keeps_noreply x xs _ (lookupStr_objInsert_self m x _)
    · have hd' : d ∈ xs := by
        rcases List.mem_cons.mp hd with rfl | h
        · exact absurd rfl hx
        · exact h
      exact ih hd' _

/-- Claim C9 (amended): with no configured domains the registry is the single
built-in default domain; each parsed entry is the trimmed, lower-cased form
of a comma-separated component and is nonempty (duplicates are kept as
repeated entries — parsing does not collapse them); with no sender
environment every domain maps to `noreply@<domain>`; and with an explicit
sender environment every listed domain lacking a truthy explicit mapping is
filled with `noreply@<domain>`. -/
theorem c9_domain_and_sender_parsing (s env d : String) (domains : List String)
    (hs : jsTruthyS s = true) (henv : jsTruthyS env = true) (hd : d ∈ domains) :
    parseDomains none = ["eternalgy.me"]
    ∧ parseDomains (some "") = ["eternalgy.me"]
    ∧ (∀ x ∈ parseDomains (some s),
        (∃ raw ∈ jsSplit s ',', x = jsToLower (jsTrim raw)) ∧ 0 < x.length)
    ∧ lookupStr (parseDefaultSenders domains none) d = some ("noreply@" ++ d)
    ∧ (jsTruthy (lookupStr (parsedSenderPairs env) d) = false →
        lookupStr (parseDefaultSenders domains (some env)) d
          = some ("noreply@" ++ d)) := by
  refine ⟨rfl, rfl, ?_, ?_, ?_⟩
  · intro x hx
    rw [parseDomains] at hx
    rw [if_neg (by simp [jsTruthy, hs])] at hx
    rcases List.mem_filter.mp hx with ⟨hmem, hlen⟩
    rcases List.mem_map.mp hmem with ⟨raw, hraw, rfl⟩
    refine ⟨⟨raw, by simpa using hraw, rfl⟩, by simpa using hlen⟩
  · rw [parseDefaultSenders]
    rw [if_pos (by simp [jsTruthy])]
    exact senderAssign_sets_noreply d domains hd []
  · intro hfal
    rw [parseDefaultSenders]
    rw [if_neg (by simp [jsTruthy, henv])]
    have := senderFill_sets_noreply d domains hd (parsedSenderPairs env) hfal
    simpa [senderFillStep] using this

/-- Claim C9, counterexample: `parseDomains` does not collapse duplicate
domains — `"a.com,a.com"` parses to two entries, not one. -/
theorem c9_duplicates_not_collapsed_cex :
    parseDomains (some "a.com,a.com") = ["a.com", "a.com"]
    ∧ (parseDomains (some "a.com,a.com")).length = 2
    ∧ parseDomains (some "a.com,a.com") ≠ ["a.com"] := by
  refine ⟨by decide, by decide, by decide⟩

/-- Claim C9, witness for the amended parsing rules at a concrete
environment. -/
theorem c9_domain_and_sender_parsing_witness :
    parseDomains none = ["eternalgy.me"]
    ∧ (∀ x ∈ parseDomains (some " A.com ,b.com"),
        (∃ raw ∈ jsSplit " A.com ,b.com" ',', x = jsToLower (jsTrim raw))
        ∧ 0 < x.length)
    ∧ lookupStr (parseDefaultSenders ["a.com", "b.com"] none) "b.com"
        = some "noreply@b.com"
    ∧ lookupStr (parseDefaultSenders ["a.com", "b.com"] (some "a.com: x@a.com"))
        "b.com" = some "noreply@b.com" := by
  have h := c9_domain_and_sender_parsing " A.com ,b.com" "a.com: x@a.com" "b.com"
    ["a.com", "b.com"] (by decide) (by decide) (by decide)
  exact ⟨h.1, h.2.2.1, h.2.2.2.1, h.2.2.2.2 (by decide)⟩


end EEMail
